import Mathlib

/-!
Verification of the AIREA real-estate lead-intake core.

Shallow embedding of the conversation lifecycle and lead-extraction
pipeline: the in-memory conversation store and its extraction gate
(conversation_manager.py), the extractor post-processing and validation
(ai_service.py together with the pydantic model in models.py), the
client upsert (database.py), and the batch lead processor
(main_improved_v2.py with email_service.py).  Timestamps are modelled
as integers (seconds), python dicts as association lists, and the
external generation / email / sqlite collaborators as explicit
parameters or oracle functions.
-/

namespace Airea

/-- Chat message, from models.py ChatMessage: a role and a content string. -/
structure ChatMessage where
  role : String
  content : String
deriving DecidableEq

/-- Client record, from models.py Client.  budget is modelled as an integer
number (the code only stores it), appointment_time as an opaque string. -/
structure Client where
  client_type : String
  name : String
  phone : String
  email : String
  property_type : Option String
  address : Option String
  budget : Option Int
  appointment : Option Bool
  appointment_time : Option String
  details : Option String
deriving DecidableEq

/- ---------------------------------------------------------------
   String helpers used by the embedding.
   --------------------------------------------------------------- -/

/-- Bool test that the first list is a prefix of the second. -/
def listPrefixOf : List Char → List Char → Bool
  | [], _ => true
  | _ :: _, [] => false
  | a :: as, b :: bs => a == b && listPrefixOf as bs

/-- Bool test that the needle occurs as a contiguous sublist of the hay. -/
def listInfixOf (needle : List Char) : List Char → Bool
  | [] => needle.isEmpty
  | b :: bs => listPrefixOf needle (b :: bs) || listInfixOf needle bs

/-- Python `needle in hay` substring test. -/
def substrOf (needle hay : String) : Bool :=
  listInfixOf needle.data hay.data

/-- Python str.lower, restricted to the ASCII mapping. -/
def lowerString (s : String) : String :=
  ⟨s.data.map Char.toLower⟩

/-- Python " ".join. -/
def joinWithSpace : List String → String
  | [] => ""
  | [s] => s
  | s :: t :: rest => s ++ " " ++ joinWithSpace (t :: rest)

/- ---------------------------------------------------------------
   Phone normalization, ai_service.py lines 124-132.
   --------------------------------------------------------------- -/

/-- Phone cleaning and normalization on character lists, translated from
ai_service.py lines 126-132: keep only digits; a 10-digit result is kept;
an 11-digit result starting with 1 gets a leading plus; otherwise a
leading plus is added when absent. -/
def normalize_phone_chars (s : List Char) : List Char :=
  let phone := s.filter Char.isDigit
  if phone.length = 10 then phone
  else if phone.length = 11 ∧ phone.take 1 = ['1'] then '+' :: phone
  else if phone.take 1 = ['+'] then phone else '+' :: phone

/-- Phone normalization on strings. -/
def normalize_phone (s : String) : String :=
  ⟨normalize_phone_chars s.data⟩

lemma filter_isDigit_idem (l : List Char) :
    (l.filter Char.isDigit).filter Char.isDigit = l.filter Char.isDigit := by
  induction l with
  | nil => rfl
  | cons a t ih =>
    cases h : Char.isDigit a <;> simp [List.filter_cons, h, ih]

lemma take_one_ne_plus {l : List Char} (h : ∀ c ∈ l, Char.isDigit c = true) :
    l.take 1 ≠ ['+'] := by
  cases l with
  | nil => simp
  | cons a t =>
    intro hc
    have ha : a = '+' := by simpa [List.take] using hc
    have := h a (by simp)
    rw [ha] at this
    exact absurd this (by decide)

lemma filter_digit_cons_plus (l : List Char) :
    ('+' :: l).filter Char.isDigit = l.filter Char.isDigit := by
  rw [List.filter_cons]
  have h : Char.isDigit '+' = false := by decide
  simp [h]

lemma normalize_phone_chars_eq (s : List Char) :
    normalize_phone_chars s =
      (if (s.filter Char.isDigit).length = 10 then s.filter Char.isDigit
       else if (s.filter Char.isDigit).length = 11 ∧ (s.filter Char.isDigit).take 1 = ['1'] then
         '+' :: s.filter Char.isDigit
       else if (s.filter Char.isDigit).take 1 = ['+'] then s.filter Char.isDigit
       else '+' :: s.filter Char.isDigit) := rfl

lemma normalize_phone_chars_idem (l : List Char) :
    normalize_phone_chars (normalize_phone_chars l) = normalize_phone_chars l := by
  set p := l.filter Char.isDigit with hp
  have hdig : ∀ c ∈ p, Char.isDigit c = true := by
    intro c hc
    exact (List.mem_filter.mp hc).2
  have hfp : p.filter Char.isDigit = p := filter_isDigit_idem l
  have hfplus : ('+' :: p).filter Char.isDigit = p := by
    rw [filter_digit_cons_plus, hfp]
  by_cases h10 : p.length = 10
  · have hN : normalize_phone_chars l = p := by
      rw [normalize_phone_chars_eq, ← hp, if_pos h10]
    rw [hN, normalize_phone_chars_eq, hfp, if_pos h10]
  · by_cases h11 : p.length = 11 ∧ p.take 1 = ['1']
    · have hN : normalize_phone_chars l = '+' :: p := by
        rw [normalize_phone_chars_eq, ← hp, if_neg h10, if_pos h11]
      rw [hN, normalize_phone_chars_eq, hfplus, if_neg h10, if_pos h11]
    · have hplus : ¬ p.take 1 = ['+'] := take_one_ne_plus hdig
      have hN : normalize_phone_chars l = '+' :: p := by
        rw [normalize_phone_chars_eq, ← hp, if_neg h10, if_neg h11, if_neg hplus]
      rw [hN, normalize_phone_chars_eq, hfplus, if_neg h10, if_neg h11, if_neg hplus]

/-- C6: phone normalization is idempotent, and maps 12025550123 to
+12025550123, 2025550123 to itself, and 202555012 to +202555012. -/
theorem c6_phone_normalization_idempotent :
    (∀ s : String, normalize_phone (normalize_phone s) = normalize_phone s)
    ∧ normalize_phone "12025550123" = "+12025550123"
    ∧ normalize_phone "2025550123" = "2025550123"
    ∧ normalize_phone "202555012" = "+202555012" := by
  refine ⟨?_, by decide, by decide, by decide⟩
  intro s
  show (⟨normalize_phone_chars (normalize_phone_chars s.data)⟩ : String)
      = ⟨normalize_phone_chars s.data⟩
  rw [normalize_phone_chars_idem]

/- ---------------------------------------------------------------
   Conversation store, conversation_manager.py.
   Python dicts are modelled as association lists keyed by the
   conversation id; datetime.now() values are passed explicitly as
   integer timestamps (seconds).
   --------------------------------------------------------------- -/

/-- Conversation metadata dict, conversation_manager.py lines 24-30. -/
structure ConvMetadata where
  created_at : Int
  updated_at : Option Int
  stage : String
  client_type : Option String
  extracted_clients : List Client
  processed : Bool
deriving DecidableEq

/-- First-match lookup in an association list: python dict access. -/
def alookup {β : Type} : List (String × β) → String → Option β
  | [], _ => none
  | (k', v) :: t, k => if k' = k then some v else alookup t k

/-- Python dict assignment d[k] = v: remove every binding of k, add the new one. -/
def upsertKey {β : Type} (l : List (String × β)) (k : String) (v : β) :
    List (String × β) :=
  l.filter (fun p => decide (p.1 ≠ k)) ++ [(k, v)]

/-- Python del d[k]. -/
def eraseKey {β : Type} (l : List (String × β)) (k : String) :
    List (String × β) :=
  l.filter (fun p => decide (p.1 ≠ k))

/-- The two module-level dicts of ConversationManager. -/
structure ConvStore where
  active : List (String × List ChatMessage)
  meta : List (String × ConvMetadata)
deriving DecidableEq

/-- create_conversation, lines 20-31: fresh message list and default metadata.
The generated id and the creation time are passed in explicitly. -/
def create_conversation (st : ConvStore) (cid : String) (now : Int) : ConvStore :=
  { active := upsertKey st.active cid [],
    meta := upsertKey st.meta cid
      { created_at := now, updated_at := none, stage := "welcome",
        client_type := none, extracted_clients := [], processed := false } }

/-- add_message, lines 33-42: append, auto-creating the message list when the
id is unknown; refresh updated_at only when a metadata entry exists. -/
def add_message (st : ConvStore) (cid : String) (m : ChatMessage) (now : Int) :
    ConvStore :=
  let msgs := (alookup st.active cid).getD []
  { active := upsertKey st.active cid (msgs ++ [m]),
    meta :=
      match alookup st.meta cid with
      | some md => upsertKey st.meta cid { md with updated_at := some now }
      | none => st.meta }

/-- get_conversation, lines 44-46. -/
def get_conversation (st : ConvStore) (cid : String) : Option (List ChatMessage) :=
  alookup st.active cid

/-- get_conversation_metadata, lines 48-50. -/
def get_conversation_metadata (st : ConvStore) (cid : String) : Option ConvMetadata :=
  alookup st.meta cid

/-- update_conversation_stage, lines 52-55. -/
def update_conversation_stage (st : ConvStore) (cid : String) (stage : String) :
    ConvStore :=
  match alookup st.meta cid with
  | some md => { st with meta := upsertKey st.meta cid { md with stage := stage } }
  | none => st

/-- The metadata update performed on successful extraction,
extract_and_process_clients lines 134-137: store the extracted clients and
set processed, when a metadata entry exists. -/
def mark_processed (st : ConvStore) (cid : String) (cs : List Client) : ConvStore :=
  match alookup st.meta cid with
  | some md =>
      { st with meta :=
          upsertKey st.meta cid { md with extracted_clients := cs, processed := true } }
  | none => st

/-- delete_conversation, lines 212-226, memory part: remove from both dicts. -/
def delete_conversation (st : ConvStore) (cid : String) : ConvStore :=
  { active := eraseKey st.active cid, meta := eraseKey st.meta cid }

/- ---------------------------------------------------------------
   Extraction gate, should_extract_data, lines 75-114.
   --------------------------------------------------------------- -/

/-- ASCII code of the apostrophe character. -/
def apos : Char := Char.ofNat 39

/-- The contraction of i am, written with an apostrophe in the source lexicon. -/
def iAmShort : String := String.mk ['i', apos, 'm']

/-- Name-indicator lexicon, line 95. -/
def nameWords : List String := ["name", iAmShort, "i am", "call me", "my name"]

/-- Buy/sell lexicon, line 96. -/
def clientTypeWords : List String := ["buy", "sell", "buyer", "seller", "buying", "selling"]

/-- Street-keyword lexicon, line 101. -/
def addressWords : List String :=
  ["address", "street", "road", "avenue", "drive", "lane", "boulevard"]

/-- Preference lexicon, line 106. -/
def preferenceWords : List String :=
  ["area", "neighborhood", "budget", "price", "looking", "house", "apartment", "condo"]

/-- Case-folded transcript: " ".join of the lowered message contents, line 90. -/
def conversationText (msgs : List ChatMessage) : String :=
  joinWithSpace (msgs.map (fun m => lowerString m.content))

/-- The signal evaluation of should_extract_data, lines 93-112, over the
joined conversation text. -/
def should_extract_signals (t : String) : Bool :=
  let has_email := substrOf "@" t && substrOf "." t
  let has_phone := t.data.any Char.isDigit
      && decide (10 ≤ (t.data.filter Char.isDigit).length)
  let has_name := nameWords.any (fun w => substrOf w t)
  let has_client_type := clientTypeWords.any (fun w => substrOf w t)
  let has_address :=
    if substrOf "sell" t then addressWords.any (fun w => substrOf w t) else false
  let has_preferences :=
    if substrOf "buy" t then preferenceWords.any (fun w => substrOf w t) else false
  (has_email && has_phone && has_name && has_client_type)
    && (has_address || has_preferences)

/-- should_extract_data, lines 75-114. -/
def should_extract_data (st : ConvStore) (cid : String) : Bool :=
  match get_conversation st cid, get_conversation_metadata st cid with
  | some msgs, some md =>
      if msgs.isEmpty then false
      else if md.processed then false
      else if 8 ≤ msgs.length then should_extract_signals (conversationText msgs)
      else false
  | _, _ => false

/- ---------------------------------------------------------------
   Eviction, cleanup_old_conversations, lines 228-246.
   age_hours > max_age_hours over real division by 3600 is expressed
   equivalently as age_seconds > max_age_hours * 3600.
   --------------------------------------------------------------- -/

/-- Bool membership of a string in a list of strings. -/
def memStr (k : String) : List String → Bool
  | [] => false
  | h :: t => (h == k) || memStr k t

/-- cleanup_old_conversations: collect ids of metadata entries older than the
threshold, delete them from both dicts, return how many were collected. -/
def cleanup_old_conversations (st : ConvStore) (now : Int) (maxAgeHours : Int) :
    ConvStore × Nat :=
  let toRemove :=
    (st.meta.filter (fun p => decide (now - p.2.created_at > maxAgeHours * 3600))).map
      Prod.fst
  ({ active := st.active.filter (fun p => !(memStr p.1 toRemove)),
     meta := st.meta.filter (fun p => !(memStr p.1 toRemove)) },
   toRemove.length)

/- ---------------------------------------------------------------
   Association-list lemmas.
   --------------------------------------------------------------- -/

lemma alookup_mem {β : Type} {l : List (String × β)} {k : String} {v : β}
    (h : alookup l k = some v) : (k, v) ∈ l := by
  induction l with
  | nil => simp [alookup] at h
  | cons p t ih =>
    obtain ⟨k', v'⟩ := p
    by_cases hk : k' = k
    · subst hk
      simp [alookup] at h
      subst h
      exact List.mem_cons_self _ _
    · simp [alookup, hk] at h
      exact List.mem_cons_of_mem _ (ih h)

lemma alookup_eq_none_iff {β : Type} {l : List (String × β)} {k : String} :
    alookup l k = none ↔ ∀ p ∈ l, p.1 ≠ k := by
  induction l with
  | nil => simp [alookup]
  | cons p t ih =>
    obtain ⟨k', v'⟩ := p
    by_cases hk : k' = k
    · subst hk
      simp [alookup]
    · simp [alookup, hk, ih]

lemma alookup_append_right {β : Type} {l : List (String × β)} {k : String}
    (h : ∀ p ∈ l, p.1 ≠ k) (rest : List (String × β)) :
    alookup (l ++ rest) k = alookup rest k := by
  induction l with
  | nil => simp
  | cons p t ih =>
    obtain ⟨k', v'⟩ := p
    have hk : k' ≠ k := h (k', v') (List.mem_cons_self _ _)
    simp only [List.cons_append, alookup, hk, if_false]
    exact ih (fun q hq => h q (List.mem_cons_of_mem _ hq))

lemma mem_filter_ne {β : Type} {l : List (String × β)} {k : String} {p : String × β}
    (h : p ∈ l.filter (fun q => decide (q.1 ≠ k))) : p ∈ l ∧ p.1 ≠ k := by
  have := List.mem_filter.mp h
  simpa using this

lemma alookup_upsert_self {β : Type} (l : List (String × β)) (k : String) (v : β) :
    alookup (upsertKey l k v) k = some v := by
  unfold upsertKey
  rw [alookup_append_right (fun p hp => (mem_filter_ne hp).2)]
  simp [alookup]

lemma upsertKey_cons {β : Type} (k0 : String) (v0 : β) (t : List (String × β))
    (k : String) (v : β) :
    upsertKey ((k0, v0) :: t) k v
      = if k0 ≠ k then (k0, v0) :: upsertKey t k v else upsertKey t k v := by
  unfold upsertKey
  by_cases hk0 : k0 = k
  · simp [hk0]
  · simp [hk0]

lemma alookup_upsert_ne {β : Type} (l : List (String × β)) {k k' : String} (v : β)
    (h : k' ≠ k) : alookup (upsertKey l k v) k' = alookup l k' := by
  induction l with
  | nil =>
    have hne : k ≠ k' := fun hh => h hh.symm
    simp [upsertKey, alookup, hne]
  | cons p t ih =>
    obtain ⟨k0, v0⟩ := p
    rw [upsertKey_cons]
    by_cases hk0 : k0 = k
    · rw [if_neg (fun hc => hc hk0)]
      have hne : k0 ≠ k' := fun hh => h (hh.symm.trans hk0)
      simp [alookup, hne, ih]
    · rw [if_pos hk0]
      by_cases hkk : k0 = k'
      · simp [alookup, hkk]
      · simp [alookup, hkk, ih]

lemma alookup_erase_self {β : Type} (l : List (String × β)) (k : String) :
    alookup (eraseKey l k) k = none := by
  rw [alookup_eq_none_iff]
  intro p hp
  exact (mem_filter_ne hp).2

lemma memStr_iff {k : String} {l : List String} : memStr k l = true ↔ k ∈ l := by
  induction l with
  | nil => simp [memStr]
  | cons h t ih =>
    simp [memStr, ih, Bool.or_eq_true, beq_iff_eq]
    constructor
    · rintro (hh | hh)
      · exact Or.inl hh.symm
      · exact Or.inr hh
    · rintro (hh | hh)
      · exact Or.inl hh.symm
      · exact Or.inr hh

/- ---------------------------------------------------------------
   C1, C9: the extraction gate.
   --------------------------------------------------------------- -/

/-- C1: for a stored conversation (messages and metadata both present),
should_extract_data returns true exactly when there are at least 8 messages,
the processed flag is false, and the heuristic signals over the case-folded
joined transcript hold; for an absent conversation it returns false. -/
theorem c1_extraction_gate (st : ConvStore) (cid : String) :
    (∀ msgs md, get_conversation st cid = some msgs →
      get_conversation_metadata st cid = some md →
      (should_extract_data st cid = true ↔
        8 ≤ msgs.length ∧ md.processed = false
          ∧ should_extract_signals (conversationText msgs) = true))
    ∧ (get_conversation st cid = none → should_extract_data st cid = false) := by
  constructor
  · intro msgs md h1 h2
    simp only [should_extract_data, h1, h2]
    cases msgs with
    | nil => simp
    | cons m rest =>
      by_cases hp : md.processed
      · simp [hp]
      · by_cases hl : 8 ≤ (m :: rest).length
        · simp [hp, hl]
        · simp [hp, hl]
  · intro h
    unfold should_extract_data
    rw [h]

def wC1Msgs : List ChatMessage :=
  [⟨"user", "hello my name is jane"⟩, ⟨"assistant", "hi jane"⟩,
   ⟨"user", "email jane@x.co"⟩, ⟨"assistant", "ok"⟩,
   ⟨"user", "phone 2025550123"⟩, ⟨"assistant", "ok"⟩,
   ⟨"user", "i want to buy a house in this area"⟩, ⟨"assistant", "great"⟩]

def wC1Meta : ConvMetadata :=
  { created_at := 0, updated_at := none, stage := "welcome",
    client_type := none, extracted_clients := [], processed := false }

def wC1Store : ConvStore := ⟨[("c", wC1Msgs)], [("c", wC1Meta)]⟩

/-- C1 witness: a concrete 8-message conversation with every signal present
passes the gate. -/
theorem c1_extraction_gate_witness : should_extract_data wC1Store "c" = true :=
  ((c1_extraction_gate wC1Store "c").1 wC1Msgs wC1Meta rfl rfl).mpr
    ⟨by decide, rfl, by decide⟩

/-- C9: when the joined case-folded transcript contains neither buy nor sell
as a substring, the gate returns false whatever the other signals are. -/
theorem c9_no_buy_sell_means_no_extract (st : ConvStore) (cid : String)
    (msgs : List ChatMessage)
    (h1 : get_conversation st cid = some msgs)
    (hbuy : substrOf "buy" (conversationText msgs) = false)
    (hsell : substrOf "sell" (conversationText msgs) = false) :
    should_extract_data st cid = false := by
  have hsig : should_extract_signals (conversationText msgs) = false := by
    unfold should_extract_signals
    simp [hbuy, hsell]
  cases h2 : get_conversation_metadata st cid with
  | none =>
    unfold should_extract_data
    rw [h1, h2]
  | some md =>
    simp only [should_extract_data, h1, h2]
    by_cases he : msgs.isEmpty <;> by_cases hp : md.processed <;>
      by_cases hl : 8 ≤ msgs.length <;> simp [he, hp, hl, hsig]

def wC9Msgs : List ChatMessage :=
  [⟨"user", "my name is jane"⟩, ⟨"assistant", "ok"⟩,
   ⟨"user", "jane@x.co"⟩, ⟨"assistant", "ok"⟩,
   ⟨"user", "2025550123"⟩, ⟨"assistant", "ok"⟩,
   ⟨"user", "i want a home on elm street"⟩, ⟨"assistant", "ok"⟩]

def wC9Store : ConvStore :=
  ⟨[("c", wC9Msgs)],
   [("c", { created_at := 0, updated_at := none, stage := "welcome",
            client_type := none, extracted_clients := [], processed := false })]⟩

/-- C9 witness: an 8-message conversation with email, phone, name, street and
area words but no buy or sell keyword fails the gate. -/
theorem c9_witness : should_extract_data wC9Store "c" = false :=
  c9_no_buy_sell_means_no_extract wC9Store "c" wC9Msgs rfl (by decide) (by decide)

/- ---------------------------------------------------------------
   C8: add_message.
   --------------------------------------------------------------- -/

/-- C8 amended: add_message always appends (auto-creating the message list on
an unknown id); it refreshes updated_at when a metadata entry exists, and for
an id without a metadata entry the metadata stays absent, so no updated_at is
written there. -/
theorem c8_add_message_amended (st : ConvStore) (cid : String) (m : ChatMessage)
    (now : Int) :
    get_conversation (add_message st cid m now) cid
      = some ((get_conversation st cid).getD [] ++ [m])
    ∧ (∀ md, get_conversation_metadata st cid = some md →
        get_conversation_metadata (add_message st cid m now) cid
          = some { md with updated_at := some now })
    ∧ (get_conversation_metadata st cid = none →
        get_conversation_metadata (add_message st cid m now) cid = none) := by
  refine ⟨?_, ?_, ?_⟩
  · show alookup (upsertKey st.active cid ((alookup st.active cid).getD [] ++ [m])) cid
        = some ((alookup st.active cid).getD [] ++ [m])
    exact alookup_upsert_self _ _ _
  · intro md hmd
    have hmd' : alookup st.meta cid = some md := hmd
    have hmeta : (add_message st cid m now).meta
        = upsertKey st.meta cid { md with updated_at := some now } := by
      show (match alookup st.meta cid with
            | some md' => upsertKey st.meta cid { md' with updated_at := some now }
            | none => st.meta)
          = upsertKey st.meta cid { md with updated_at := some now }
      rw [hmd']
    show alookup (add_message st cid m now).meta cid = _
    rw [hmeta]
    exact alookup_upsert_self _ _ _
  · intro hmd
    have hmd' : alookup st.meta cid = none := hmd
    have hmeta : (add_message st cid m now).meta = st.meta := by
      show (match alookup st.meta cid with
            | some md' => upsertKey st.meta cid { md' with updated_at := some now }
            | none => st.meta)
          = st.meta
      rw [hmd']
    show alookup (add_message st cid m now).meta cid = none
    rw [hmeta]
    exact hmd'

def emptyStore : ConvStore := ⟨[], []⟩

def wC8Msg : ChatMessage := ⟨"user", "hi"⟩

def wC8Msg2 : ChatMessage := ⟨"user", "hello again"⟩

/-- C8 counterexample: calling add_message on an unknown conversation id
appends the message, but creates no metadata entry at all, so the updated_at
metadata is not updated for that conversation. -/
theorem c8_counterexample :
    get_conversation (add_message emptyStore "c" wC8Msg 5) "c" = some [wC8Msg]
    ∧ get_conversation_metadata (add_message emptyStore "c" wC8Msg 5) "c" = none := by
  exact ⟨rfl, rfl⟩

def wC8Meta : ConvMetadata :=
  { created_at := 10, updated_at := none, stage := "welcome",
    client_type := none, extracted_clients := [], processed := false }

def wC8Store : ConvStore := ⟨[("c", [wC8Msg])], [("c", wC8Meta)]⟩

/-- C8 witness: on a conversation that has a metadata entry, add_message
appends and refreshes updated_at. -/
theorem c8_witness :
    get_conversation (add_message wC8Store "c" wC8Msg2 7) "c" = some [wC8Msg, wC8Msg2]
    ∧ get_conversation_metadata (add_message wC8Store "c" wC8Msg2 7) "c"
      = some { wC8Meta with updated_at := some 7 } :=
  ⟨by rw [(c8_add_message_amended wC8Store "c" wC8Msg2 7).1]; rfl,
   (c8_add_message_amended wC8Store "c" wC8Msg2 7).2.1 wC8Meta rfl⟩

/- ---------------------------------------------------------------
   C3: the processed flag is terminal for automatic extraction.
   Subsequent activity on the store is modelled as a sequence of the
   mutating ConversationManager operations; create is the only
   operation that could reset the flag and it is only ever called
   with a freshly generated id, so the op list is assumed not to
   create the same id again.
   --------------------------------------------------------------- -/

/-- The mutating store operations of ConversationManager. -/
inductive StoreOp where
  | create (cid : String) (now : Int)
  | addMsg (cid : String) (m : ChatMessage) (now : Int)
  | setStage (cid : String) (stage : String)
  | markProc (cid : String) (cs : List Client)
  | deleteConv (cid : String)
  | cleanup (now : Int) (maxAgeHours : Int)
deriving DecidableEq

/-- Interpretation of a store operation. -/
def applyOp (st : ConvStore) : StoreOp → ConvStore
  | .create cid now => create_conversation st cid now
  | .addMsg cid m now => add_message st cid m now
  | .setStage cid s => update_conversation_stage st cid s
  | .markProc cid cs => mark_processed st cid cs
  | .deleteConv cid => delete_conversation st cid
  | .cleanup now maxAge => (cleanup_old_conversations st now maxAge).1

/-- Every metadata entry stored under this id has processed set. -/
def ProcessedAt (cid : String) (st : ConvStore) : Prop :=
  ∀ p ∈ st.meta, p.1 = cid → p.2.processed = true

lemma mem_upsert {β : Type} {l : List (String × β)} {k : String} {v : β}
    {p : String × β} (h : p ∈ upsertKey l k v) :
    (p ∈ l ∧ p.1 ≠ k) ∨ p = (k, v) := by
  unfold upsertKey at h
  rcases List.mem_append.mp h with h | h
  · exact Or.inl (mem_filter_ne h)
  · simp at h
    exact Or.inr h

lemma processedAt_of_alookup {cid : String} {st : ConvStore}
    (h : ProcessedAt cid st) {md : ConvMetadata}
    (hmd : alookup st.meta cid = some md) : md.processed = true :=
  h _ (alookup_mem hmd) rfl

lemma mark_processed_processedAt (st : ConvStore) (cid : String) (cs : List Client) :
    ProcessedAt cid (mark_processed st cid cs) := by
  unfold mark_processed
  cases hmd : alookup st.meta cid with
  | none =>
    intro p hp hpk
    exact absurd hpk (alookup_eq_none_iff.mp hmd p hp)
  | some md =>
    intro p hp hpk
    rcases mem_upsert hp with ⟨_, hne⟩ | he
    · exact absurd hpk hne
    · rw [he]

lemma processedAt_applyOp {cid : String} {st : ConvStore} {op : StoreOp}
    (hop : ∀ t, op ≠ .create cid t) (h : ProcessedAt cid st) :
    ProcessedAt cid (applyOp st op) := by
  cases op with
  | create cid' now =>
    intro p hp hpk
    rcases mem_upsert hp with ⟨hm, _⟩ | he
    · exact h p hm hpk
    · exfalso
      have hcc : cid' = cid := by rw [he] at hpk; exact hpk
      exact hop now (by rw [hcc])
  | addMsg cid' m now =>
    intro p hp hpk
    have hp' : p ∈ (match alookup st.meta cid' with
        | some md => upsertKey st.meta cid' { md with updated_at := some now }
        | none => st.meta) := hp
    cases hmd : alookup st.meta cid' with
    | none =>
      rw [hmd] at hp'
      exact h p hp' hpk
    | some md =>
      rw [hmd] at hp'
      rcases mem_upsert hp' with ⟨hm, _⟩ | he
      · exact h p hm hpk
      · have hcc : cid' = cid := by rw [he] at hpk; exact hpk
        have hmp : md.processed = true := processedAt_of_alookup h (hcc ▸ hmd)
        rw [he]
        simpa using hmp
  | setStage cid' s =>
    intro p hp hpk
    have hp' : p ∈ (match alookup st.meta cid' with
        | some md =>
            { st with meta := upsertKey st.meta cid' { md with stage := s } }
        | none => st).meta := hp
    cases hmd : alookup st.meta cid' with
    | none =>
      rw [hmd] at hp'
      exact h p hp' hpk
    | some md =>
      rw [hmd] at hp'
      rcases mem_upsert hp' with ⟨hm, _⟩ | he
      · exact h p hm hpk
      · have hcc : cid' = cid := by rw [he] at hpk; exact hpk
        have hmp : md.processed = true := processedAt_of_alookup h (hcc ▸ hmd)
        rw [he]
        simpa using hmp
  | markProc cid' cs =>
    intro p hp hpk
    have hp' : p ∈ (match alookup st.meta cid' with
        | some md => { st with meta := upsertKey st.meta cid' { md with extracted_clients := cs, processed := true } }
        | none => st).meta := hp
    cases hmd : alookup st.meta cid' with
    | none =>
      rw [hmd] at hp'
      exact h p hp' hpk
    | some md =>
      rw [hmd] at hp'
      rcases mem_upsert hp' with ⟨hm, _⟩ | he
      · exact h p hm hpk
      · rw [he]
  | deleteConv cid' =>
    intro p hp hpk
    exact h p (mem_filter_ne hp).1 hpk
  | cleanup now maxAge =>
    intro p hp hpk
    exact h p (List.mem_filter.mp hp).1 hpk

lemma should_extract_false_of_processedAt {cid : String} {st : ConvStore}
    (h : ProcessedAt cid st) : should_extract_data st cid = false := by
  unfold should_extract_data
  cases hma : get_conversation st cid with
  | none => rfl
  | some msgs =>
    cases hmd : get_conversation_metadata st cid with
    | none => rfl
    | some md =>
      have hp : md.processed = true := processedAt_of_alookup h hmd
      by_cases he : msgs.isEmpty <;> simp [he, hp]

lemma foldl_processedAt {cid : String} (ops : List StoreOp) :
    ∀ st : ConvStore, (∀ op ∈ ops, ∀ t, op ≠ .create cid t) → ProcessedAt cid st →
      ProcessedAt cid (ops.foldl applyOp st) := by
  induction ops with
  | nil =>
    intro st _ h
    exact h
  | cons op rest ih =>
    intro st hops h
    rw [List.foldl_cons]
    exact ih _ (fun o ho t => hops o (List.mem_cons_of_mem _ ho) t)
      (processedAt_applyOp (fun t => hops op (List.mem_cons_self _ _) t) h)

/-- C3: after the processed flag is set for a conversation, any sequence of
subsequent store operations that does not re-create that id leaves every
later should_extract_data call on it returning false. -/
theorem c3_processed_terminal (st : ConvStore) (cid : String) (cs : List Client)
    (ops : List StoreOp) (hops : ∀ t : Int, StoreOp.create cid t ∉ ops) :
    should_extract_data (ops.foldl applyOp (mark_processed st cid cs)) cid = false := by
  apply should_extract_false_of_processedAt
  apply foldl_processedAt
  · intro op hop t hco
    exact hops t (hco ▸ hop)
  · exact mark_processed_processedAt st cid cs

def wC3Msgs : List ChatMessage :=
  [⟨"user", "my name is bob"⟩, ⟨"assistant", "hi bob"⟩,
   ⟨"user", "bob@x.co"⟩, ⟨"assistant", "ok"⟩,
   ⟨"user", "2025550177"⟩, ⟨"assistant", "ok"⟩,
   ⟨"user", "i plan to buy a condo in that area"⟩, ⟨"assistant", "great"⟩]

def wC3Store : ConvStore :=
  ⟨[("c", wC3Msgs)],
   [("c", { created_at := 0, updated_at := none, stage := "welcome",
            client_type := none, extracted_clients := [], processed := false })]⟩

def wC3Ops : List StoreOp :=
  [StoreOp.addMsg "c" ⟨"user", "one more message"⟩ 9, StoreOp.setStage "c" "complete"]

/-- C3 witness: a conversation whose signals pass the gate, once marked
processed, keeps failing the gate after further messages and stage updates. -/
theorem c3_witness :
    should_extract_data wC3Store "c" = true
    ∧ should_extract_data
        (wC3Ops.foldl applyOp (mark_processed wC3Store "c" [])) "c" = false :=
  ⟨by decide,
   c3_processed_terminal wC3Store "c" [] wC3Ops
     (by intro t h; simp [wC3Ops] at h)⟩

/- ---------------------------------------------------------------
   C7: eviction by age.
   --------------------------------------------------------------- -/

lemma alookup_filter_not_mem {β : Type} {l : List (String × β)} {ids : List String}
    {k : String} (h : k ∈ ids) :
    alookup (l.filter (fun p => !(memStr p.1 ids))) k = none := by
  rw [alookup_eq_none_iff]
  intro p hp hpk
  have h2 := (List.mem_filter.mp hp).2
  rw [hpk, memStr_iff.mpr h] at h2
  simp at h2

/-- C7 amended: cleanup_old_conversations returns the number of metadata
entries whose age strictly exceeds the threshold and removes exactly those
conversations from both maps; when every stored conversation was created
strictly before the call time, evict-older-than-zero removes all of them and
returns their count.  A conversation created at exactly the call instant has
age zero and thus survives an evict-older-than-zero call. -/
theorem c7_evict_older_than (st : ConvStore) (now maxAgeHours : Int) :
    ((cleanup_old_conversations st now maxAgeHours).2
        = (st.meta.filter
            (fun p => decide (now - p.2.created_at > maxAgeHours * 3600))).length)
    ∧ (∀ cid md, alookup st.meta cid = some md →
        now - md.created_at > maxAgeHours * 3600 →
        alookup (cleanup_old_conversations st now maxAgeHours).1.meta cid = none
        ∧ alookup (cleanup_old_conversations st now maxAgeHours).1.active cid = none)
    ∧ ((∀ p ∈ st.meta, now - p.2.created_at > 0) →
        (cleanup_old_conversations st now 0).2 = st.meta.length
        ∧ (cleanup_old_conversations st now 0).1.meta = []) := by
  refine ⟨?_, ?_, ?_⟩
  · simp [cleanup_old_conversations]
  · intro cid md hmd hage
    have hmem : cid ∈ (st.meta.filter
        (fun p => decide (now - p.2.created_at > maxAgeHours * 3600))).map Prod.fst := by
      apply List.mem_map.mpr
      exact ⟨(cid, md), List.mem_filter.mpr ⟨alookup_mem hmd, by simpa using hage⟩, rfl⟩
    exact ⟨alookup_filter_not_mem hmem, alookup_filter_not_mem hmem⟩
  · intro hall
    have hfe : st.meta.filter (fun p => decide (now - p.2.created_at > 0 * 3600))
        = st.meta := by
      apply List.filter_eq_self.mpr
      intro p hp
      simpa using hall p hp
    constructor
    · show ((st.meta.filter
          (fun p => decide (now - p.2.created_at > 0 * 3600))).map Prod.fst).length
        = st.meta.length
      rw [hfe, List.length_map]
    · show st.meta.filter (fun p => !(memStr p.1 ((st.meta.filter
          (fun p => decide (now - p.2.created_at > 0 * 3600))).map Prod.fst))) = []
      rw [hfe]
      apply List.filter_eq_nil_iff.mpr
      intro p hp
      rw [memStr_iff.mpr (List.mem_map.mpr ⟨p, hp, rfl⟩)]
      simp

def wC7Meta : ConvMetadata :=
  { created_at := 100, updated_at := none, stage := "welcome",
    client_type := none, extracted_clients := [], processed := false }

def wC7Store : ConvStore := ⟨[("c", [⟨"user", "hi"⟩])], [("c", wC7Meta)]⟩

/-- C7 counterexample: on a store holding one conversation whose created_at
equals the eviction call time, evict-older-than-zero removes nothing and
returns 0 rather than 1. -/
theorem c7_counterexample :
    (cleanup_old_conversations wC7Store 100 0).2 = 0
    ∧ (cleanup_old_conversations wC7Store 100 0).1 = wC7Store := by
  exact ⟨rfl, rfl⟩

/-- C7 witness: the same store evicted at a strictly later instant loses its
single conversation and the call returns 1. -/
theorem c7_evict_witness :
    (cleanup_old_conversations wC7Store 200 0).2 = 1
    ∧ (cleanup_old_conversations wC7Store 200 0).1.meta = [] :=
  ⟨((c7_evict_older_than wC7Store 200 0).2.2 (by decide)).1.trans rfl,
   ((c7_evict_older_than wC7Store 200 0).2.2 (by decide)).2⟩

/- ---------------------------------------------------------------
   C4: the clients table and save_client, database.py lines 66-144.
   The sqlite table is a row list with an autoincrement counter;
   CURRENT_TIMESTAMP values are passed in explicitly.
   --------------------------------------------------------------- -/

/-- A row of the clients table, database.py lines 22-38. -/
structure ClientRow where
  id : Nat
  client_type : String
  name : String
  phone : String
  email : String
  property_type : Option String
  address : Option String
  budget : Option Int
  appointment : Option Bool
  appointment_time : Option String
  details : Option String
  created_at : Int
  updated_at : Int
deriving DecidableEq

/-- The clients table plus its autoincrement state. -/
structure ClientsDB where
  rows : List ClientRow
  nextId : Nat
deriving DecidableEq

/-- client_exists, lines 66-72: SELECT COUNT(*) WHERE email = ? compared
against zero. -/
def client_exists (db : ClientsDB) (email : String) : Bool :=
  decide (0 < (db.rows.filter (fun r => r.email == email)).length)

/-- The UPDATE branch of save_client, lines 91-115: overwrite every mutable
column of the rows matching the email, refresh updated_at, keep id, email
and created_at. -/
def updateRow (c : Client) (now : Int) (r : ClientRow) : ClientRow :=
  if r.email == c.email then
    { r with client_type := c.client_type, name := c.name, phone := c.phone,
             property_type := c.property_type, address := c.address,
             budget := c.budget, appointment := c.appointment,
             appointment_time := c.appointment_time, details := c.details,
             updated_at := now }
  else r

/-- The INSERT branch of save_client, lines 119-135: fresh id, both
timestamps set to the current time. -/
def newRow (db : ClientsDB) (c : Client) (now : Int) : ClientRow :=
  { id := db.nextId, client_type := c.client_type, name := c.name,
    phone := c.phone, email := c.email, property_type := c.property_type,
    address := c.address, budget := c.budget, appointment := c.appointment,
    appointment_time := c.appointment_time, details := c.details,
    created_at := now, updated_at := now }

/-- save_client, lines 74-144: update when the email exists, else insert;
returns whether a new row was created. -/
def save_client (db : ClientsDB) (c : Client) (now : Int) : ClientsDB × Bool :=
  if client_exists db c.email then
    ({ db with rows := db.rows.map (updateRow c now) }, false)
  else
    ({ rows := db.rows ++ [newRow db c now], nextId := db.nextId + 1 }, true)

lemma filter_email_nil_of_not_exists {db : ClientsDB} {e : String}
    (h : client_exists db e = false) :
    db.rows.filter (fun r => r.email == e) = [] := by
  unfold client_exists at h
  rw [decide_eq_false_iff_not, Nat.not_lt, Nat.le_zero] at h
  exact List.length_eq_zero.mp h

/-- C4: starting from a table without the email, upserting a record and then
upserting a record with the same email reports is_new true then false, and
leaves exactly one row for that email: id and created_at from the insert,
every mutable field from the second record, updated_at from the second call. -/
theorem c4_upsert_same_email (db : ClientsDB) (c1 c2 : Client) (t1 t2 : Int)
    (hne : client_exists db c1.email = false) (heq : c2.email = c1.email) :
    (save_client db c1 t1).2 = true
    ∧ (save_client (save_client db c1 t1).1 c2 t2).2 = false
    ∧ (save_client (save_client db c1 t1).1 c2 t2).1.rows.filter
        (fun r => r.email == c1.email)
      = [{ id := db.nextId, client_type := c2.client_type, name := c2.name,
           phone := c2.phone, email := c1.email,
           property_type := c2.property_type, address := c2.address,
           budget := c2.budget, appointment := c2.appointment,
           appointment_time := c2.appointment_time, details := c2.details,
           created_at := t1, updated_at := t2 }] := by
  have hfnil : db.rows.filter (fun r => r.email == c1.email) = [] :=
    filter_email_nil_of_not_exists hne
  have hall : ∀ r ∈ db.rows, (r.email == c1.email) = false := by
    intro r hr
    by_contra hc
    have hb : (r.email == c1.email) = true := by
      cases hb2 : (r.email == c1.email) with
      | true => rfl
      | false => exact absurd hb2 hc
    have : r ∈ db.rows.filter (fun r => r.email == c1.email) :=
      List.mem_filter.mpr ⟨hr, hb⟩
    rw [hfnil] at this
    exact absurd this (List.not_mem_nil r)
  have hsave1 : save_client db c1 t1
      = ({ rows := db.rows ++ [newRow db c1 t1], nextId := db.nextId + 1 }, true) := by
    unfold save_client
    rw [hne]
    simp
  have hnew_email : (newRow db c1 t1).email = c1.email := rfl
  have hfilter1 : (db.rows ++ [newRow db c1 t1]).filter (fun r => r.email == c1.email)
      = [newRow db c1 t1] := by
    rw [List.filter_append, hfnil]
    simp [newRow]
  have hex1 : client_exists
      ({ rows := db.rows ++ [newRow db c1 t1], nextId := db.nextId + 1 } : ClientsDB)
      c2.email = true := by
    rw [heq]
    unfold client_exists
    rw [decide_eq_true_iff]
    show 0 < ((db.rows ++ [newRow db c1 t1]).filter (fun r => r.email == c1.email)).length
    rw [hfilter1]
    simp
  have hsave2 : save_client
      ({ rows := db.rows ++ [newRow db c1 t1], nextId := db.nextId + 1 } : ClientsDB) c2 t2
      = ({ rows := (db.rows ++ [newRow db c1 t1]).map (updateRow c2 t2),
           nextId := db.nextId + 1 }, false) := by
    unfold save_client
    rw [hex1]
    simp
  refine ⟨by rw [hsave1], ?_, ?_⟩
  · simp only [hsave1]
    rw [hsave2]
  · simp only [hsave1]
    rw [hsave2]
    show ((db.rows ++ [newRow db c1 t1]).map (updateRow c2 t2)).filter
        (fun r => r.email == c1.email) = _
    rw [List.map_append]
    have hmap_id : db.rows.map (updateRow c2 t2) = db.rows := by
      have hfix : ∀ r ∈ db.rows, updateRow c2 t2 r = r := by
        intro r hr
        unfold updateRow
        rw [heq, hall r hr]
        simp
      calc db.rows.map (updateRow c2 t2) = db.rows.map id := List.map_congr_left hfix
        _ = db.rows := List.map_id db.rows
    rw [hmap_id, List.filter_append, hfnil, List.nil_append]
    have hupd : updateRow c2 t2 (newRow db c1 t1)
        = { id := db.nextId, client_type := c2.client_type, name := c2.name,
            phone := c2.phone, email := c1.email,
            property_type := c2.property_type, address := c2.address,
            budget := c2.budget, appointment := c2.appointment,
            appointment_time := c2.appointment_time, details := c2.details,
            created_at := t1, updated_at := t2 } := by
      unfold updateRow
      rw [hnew_email, heq]
      simp [newRow]
    rw [List.map_singleton, hupd]
    rw [List.filter_singleton]
    simp

def wC4Client : Client :=
  { client_type := "Buyer", name := "Jane Doe", phone := "2025550123",
    email := "jane@x.co", property_type := some "House", address := none,
    budget := some 300000, appointment := none, appointment_time := none,
    details := none }

/-- C4 witness: upserting the same record twice into an empty table. -/
theorem c4_upsert_witness :
    (save_client ⟨[], 0⟩ wC4Client 1).2 = true
    ∧ (save_client (save_client ⟨[], 0⟩ wC4Client 1).1 wC4Client 2).2 = false
    ∧ (save_client (save_client ⟨[], 0⟩ wC4Client 1).1 wC4Client 2).1.rows.filter
        (fun r => r.email == wC4Client.email)
      = [{ id := 0, client_type := "Buyer", name := "Jane Doe",
           phone := "2025550123", email := "jane@x.co",
           property_type := some "House", address := none,
           budget := some 300000, appointment := none, appointment_time := none,
           details := none, created_at := 1, updated_at := 2 }] := by
  have h := c4_upsert_same_email ⟨[], 0⟩ wC4Client wC4Client 1 2 (by decide) rfl
  exact ⟨h.1, h.2.1, h.2.2.trans (by decide)⟩

/- ---------------------------------------------------------------
   C2: extractor post-processing and validation,
   ai_service.py extract_client_data lines 58-149 with the pydantic
   constraints of models.py Client lines 7-18.  The generation
   backend is external: its outcome is a parameter, Except.error for
   a raised failure, ok none for a response without parsed content,
   ok (some candidates) for a parsed candidate list.  The pydantic
   email validator is likewise external and passed as a predicate.
   --------------------------------------------------------------- -/

/-- A candidate object as returned by the backend before validation:
every field may be missing. -/
structure RawCandidate where
  client_type : Option String
  name : Option String
  phone : Option String
  email : Option String
  property_type : Option String
  address : Option String
  budget : Option Int
  appointment : Option Bool
  appointment_time : Option String
  details : Option String
deriving DecidableEq

/-- The pydantic pattern for phone: an optional plus sign then 10 to 15
digits. -/
def phone_pattern (s : String) : Bool :=
  match s.data with
  | [] => false
  | c :: rest =>
    if c = '+' then
      rest.all Char.isDigit && decide (10 ≤ rest.length) && decide (rest.length ≤ 15)
    else
      (c :: rest).all Char.isDigit && decide (10 ≤ (c :: rest).length)
        && decide ((c :: rest).length ≤ 15)

/-- The constraints the pydantic Client model enforces, models.py lines 7-18,
with the external email validator as a parameter. -/
def clientValid (emailOK : String → Bool) (c : Client) : Bool :=
  (c.client_type == "Buyer" || c.client_type == "Seller")
  && decide (1 ≤ c.name.length)
  && phone_pattern c.phone
  && emailOK c.email
  && (match c.property_type with
      | none => true
      | some p => p == "House" || p == "Apartment" || p == "Condo" || p == "Townhouse")
  && (match c.address with
      | none => true
      | some a => decide (1 ≤ a.length))
  && (match c.budget with
      | none => true
      | some b => decide (0 ≤ b))
  && (match c.details with
      | none => true
      | some d => decide (1 ≤ d.length))

/-- The phone-cleaning step, ai_service.py lines 124-132: applied only when a
phone value is present and non-empty. -/
def cleanCandidatePhone (r : RawCandidate) : RawCandidate :=
  match r.phone with
  | some p => if p.isEmpty then r else { r with phone := some (normalize_phone p) }
  | none => r

/-- The pydantic Client construction, line 135: succeeds exactly when every
required field is present and every constraint holds; a failure is caught by
the per-candidate except branch and the candidate is skipped. -/
def validateClient (emailOK : String → Bool) (r : RawCandidate) : Option Client :=
  match r.client_type, r.name, r.phone, r.email with
  | some ct, some nm, some ph, some em =>
    let c : Client :=
      { client_type := ct, name := nm, phone := ph, email := em,
        property_type := r.property_type, address := r.address,
        budget := r.budget, appointment := r.appointment,
        appointment_time := r.appointment_time, details := r.details }
    if clientValid emailOK c then some c else none
  | _, _, _, _ => none

/-- One loop iteration of lines 121-140: clean the phone, then validate. -/
def validateCandidate (emailOK : String → Bool) (r : RawCandidate) : Option Client :=
  validateClient emailOK (cleanCandidatePhone r)

/-- extract_client_data, lines 58-149: a backend failure or an unparsed
response yields the empty list; otherwise each candidate is cleaned and
validated, dropping the failures. -/
def extract_client_data (emailOK : String → Bool)
    (backend : Except String (Option (List RawCandidate))) : List Client :=
  match backend with
  | .error _ => []
  | .ok none => []
  | .ok (some cands) => cands.filterMap (validateCandidate emailOK)

lemma validateCandidate_some_valid {emailOK : String → Bool} {r : RawCandidate}
    {c : Client} (h : validateCandidate emailOK r = some c) :
    clientValid emailOK c = true := by
  unfold validateCandidate validateClient at h
  set r' := cleanCandidatePhone r with hr'
  cases hct : r'.client_type with
  | none => rw [hct] at h; exact absurd h (by simp)
  | some ct =>
    cases hnm : r'.name with
    | none => rw [hct, hnm] at h; exact absurd h (by simp)
    | some nm =>
      cases hph : r'.phone with
      | none => rw [hct, hnm, hph] at h; exact absurd h (by simp)
      | some ph =>
        cases hem : r'.email with
        | none => rw [hct, hnm, hph, hem] at h; exact absurd h (by simp)
        | some em =>
          rw [hct, hnm, hph, hem] at h
          simp only at h
          split at h
          · rename_i hvalid
            cases h
            exact hvalid
          · exact absurd h (by simp)

lemma cleanCandidatePhone_fields (r : RawCandidate) :
    (cleanCandidatePhone r).client_type = r.client_type
    ∧ (cleanCandidatePhone r).name = r.name
    ∧ (cleanCandidatePhone r).email = r.email
    ∧ ((cleanCandidatePhone r).phone = none ↔ r.phone = none) := by
  unfold cleanCandidatePhone
  cases hp : r.phone with
  | none => simp [hp]
  | some p =>
    by_cases he : p.isEmpty <;> simp [he, hp]

lemma validateCandidate_missing_none {emailOK : String → Bool} {r : RawCandidate}
    (h : r.client_type = none ∨ r.name = none ∨ r.phone = none ∨ r.email = none) :
    validateCandidate emailOK r = none := by
  unfold validateCandidate validateClient
  obtain ⟨hct, hnm, hem, hph⟩ := cleanCandidatePhone_fields r
  rcases h with h | h | h | h
  · rw [hct, h]
  · rw [hnm, h]
    cases (cleanCandidatePhone r).client_type <;> rfl
  · rw [hph.mpr h]
    cases (cleanCandidatePhone r).client_type <;>
      cases (cleanCandidatePhone r).name <;> rfl
  · rw [hem, h]
    cases (cleanCandidatePhone r).client_type <;>
      cases (cleanCandidatePhone r).name <;>
        cases (cleanCandidatePhone r).phone <;> rfl

/-- C2: the extractor is total; a backend failure or unparsed response gives
the empty list; every emitted client satisfies every pydantic constraint;
every emitted client comes from some candidate via validation; and a
candidate missing client_type, name, phone or email validates to none, hence
never appears in the output. -/
theorem c2_extractor_validation (emailOK : String → Bool)
    (backend : Except String (Option (List RawCandidate))) :
    (∀ e, backend = .error e → extract_client_data emailOK backend = [])
    ∧ (backend = .ok none → extract_client_data emailOK backend = [])
    ∧ (∀ c, c ∈ extract_client_data emailOK backend → clientValid emailOK c = true)
    ∧ (∀ cands, backend = .ok (some cands) →
        (∀ c, c ∈ extract_client_data emailOK backend →
          ∃ r, r ∈ cands ∧ validateCandidate emailOK r = some c)
        ∧ (∀ r, r ∈ cands →
            (r.client_type = none ∨ r.name = none ∨ r.phone = none ∨ r.email = none) →
            validateCandidate emailOK r = none)) := by
  refine ⟨?_, ?_, ?_, ?_⟩
  · intro e he
    rw [he]
    rfl
  · intro he
    rw [he]
    rfl
  · intro c hc
    cases backend with
    | error e => exact absurd hc (by simp [extract_client_data])
    | ok o =>
      cases o with
      | none => exact absurd hc (by simp [extract_client_data])
      | some cands =>
        have hmem : ∃ r ∈ cands, validateCandidate emailOK r = some c :=
          List.mem_filterMap.mp hc
        obtain ⟨r, _, hr⟩ := hmem
        exact validateCandidate_some_valid hr
  · intro cands hb
    constructor
    · intro c hc
      rw [hb] at hc
      have hmem : ∃ r ∈ cands, validateCandidate emailOK r = some c :=
        List.mem_filterMap.mp hc
      obtain ⟨r, hrm, hr⟩ := hmem
      exact ⟨r, hrm, hr⟩
    · intro r _ hmiss
      exact validateCandidate_missing_none hmiss

def wEmailOK : String → Bool := fun s => s == "jane@x.co"

def wGoodCand : RawCandidate :=
  { client_type := some "Buyer", name := some "Jane", phone := some "202-555-0123",
    email := some "jane@x.co", property_type := none, address := none,
    budget := some 300000, appointment := none, appointment_time := none,
    details := none }

def wBadCand : RawCandidate := { wGoodCand with email := none }

/-- C2 witness: a failing backend yields the empty list; a candidate missing
its email validates to none; a complete candidate is emitted with its phone
normalized and satisfies the model constraints. -/
theorem c2_extractor_witness :
    extract_client_data wEmailOK (.error "backend down") = []
    ∧ validateCandidate wEmailOK wBadCand = none
    ∧ (∀ c, c ∈ extract_client_data wEmailOK (.ok (some [wGoodCand, wBadCand])) →
        clientValid wEmailOK c = true)
    ∧ extract_client_data wEmailOK (.ok (some [wGoodCand, wBadCand]))
      = [{ client_type := "Buyer", name := "Jane", phone := "2025550123",
           email := "jane@x.co", property_type := none, address := none,
           budget := some 300000, appointment := none, appointment_time := none,
           details := none }] :=
  ⟨(c2_extractor_validation wEmailOK (.error "backend down")).1 "backend down" rfl,
   ((c2_extractor_validation wEmailOK (.ok (some [wGoodCand, wBadCand]))).2.2.2
       [wGoodCand, wBadCand] rfl).2 wBadCand (by simp)
     (Or.inr (Or.inr (Or.inr rfl))),
   (c2_extractor_validation wEmailOK (.ok (some [wGoodCand, wBadCand]))).2.2.1,
   by decide⟩

/- ---------------------------------------------------------------
   C5: the lead processor, main_improved_v2.py lines 66-129 with
   send_manual_lead_processing_email, email_service.py lines 343-405.
   The sqlite save and the three email sends are external
   collaborators, modelled as oracle functions: save may fail with an
   exception (Except.error), each send returns a Bool and never
   raises (send_email catches everything, lines 102-106).
   --------------------------------------------------------------- -/

/-- Outcome record of send_manual_lead_processing_email, the parts the
processor consumes. -/
structure EmailResult where
  errors : List String
  success : Bool
deriving DecidableEq

/-- The three send operations used for one lead. -/
structure EmailEnv where
  sendWelcome : Client → Bool
  sendProperty : Client → Bool
  sendAgent : Client → Bool → Bool

/-- send_manual_lead_processing_email, email_service.py lines 343-405:
welcome email only for new clients, then property details, then the agent
alert; each failed send appends an error entry; success means no errors. -/
def send_manual_lead_processing_email (env : EmailEnv) (c : Client)
    (isNew : Bool) : EmailResult :=
  let werrs :=
    if isNew then
      (if env.sendWelcome c then [] else ["Failed to send welcome email"])
    else []
  let perrs :=
    if env.sendProperty c then [] else ["Failed to send property details email"]
  let aerrs :=
    if env.sendAgent c isNew then [] else ["Failed to send agent notification"]
  let errs := werrs ++ perrs ++ aerrs
  { errors := errs, success := errs.isEmpty }

/-- The collaborators of process_client_data_enhanced. -/
structure ProcEnv where
  save : Client → Except String Bool
  emailConfigured : Bool
  email : EmailEnv

/-- The error string appended when saving a client raises,
main_improved_v2.py line 115. -/
def saveErrorMsg (c : Client) (e : String) : String :=
  "Error processing client " ++ c.email ++ ": " ++ e

/-- One iteration of the processing loop, main_improved_v2.py lines 77-117:
a save failure is caught and recorded without counting the record; on a
successful save the emails are attempted (or a configuration error recorded)
and the record is counted. -/
def processStep (env : ProcEnv) (acc : Nat × List String) (c : Client) :
    Nat × List String :=
  match env.save c with
  | .error e => (acc.1, acc.2 ++ [saveErrorMsg c e])
  | .ok isNew =>
    if env.emailConfigured then
      (acc.1 + 1, acc.2 ++ (send_manual_lead_processing_email env.email c isNew).errors)
    else
      (acc.1 + 1, acc.2 ++ ["Email service not configured"])

/-- process_client_data_enhanced, lines 66-129: fold the loop over the batch
starting from a zero count and an empty error list. -/
def process_client_data_enhanced (env : ProcEnv) (clients : List Client) :
    Nat × List String :=
  clients.foldl (processStep env) (0, [])

/-- Whether the persistence upsert succeeds for a record. -/
def saveOk (env : ProcEnv) (c : Client) : Bool :=
  match env.save c with
  | .ok _ => true
  | .error _ => false

lemma processStep_fst (env : ProcEnv) (acc : Nat × List String) (c : Client) :
    (processStep env acc c).1 = acc.1 + (if saveOk env c then 1 else 0) := by
  unfold processStep saveOk
  cases env.save c with
  | error e => simp
  | ok isNew => by_cases hc : env.emailConfigured <;> simp [hc]

/-- The error entries the loop body appends for one record. -/
def contribErrors (env : ProcEnv) (c : Client) : List String :=
  match env.save c with
  | .error e => [saveErrorMsg c e]
  | .ok isNew =>
    if env.emailConfigured then
      (send_manual_lead_processing_email env.email c isNew).errors
    else
      ["Email service not configured"]

lemma processStep_snd_eq (env : ProcEnv) (acc : Nat × List String) (c : Client) :
    (processStep env acc c).2 = acc.2 ++ contribErrors env c := by
  unfold processStep contribErrors
  cases env.save c with
  | error e => rfl
  | ok isNew => by_cases hc : env.emailConfigured <;> simp [hc]

lemma foldl_fst (env : ProcEnv) (l : List Client) :
    ∀ acc : Nat × List String,
      (l.foldl (processStep env) acc).1 = acc.1 + (l.filter (saveOk env)).length := by
  induction l with
  | nil =>
    intro acc
    simp
  | cons c t ih =>
    intro acc
    rw [List.foldl_cons, ih, processStep_fst]
    by_cases hs : saveOk env c
    · simp [List.filter_cons, hs]
      omega
    · simp [List.filter_cons, hs]

lemma foldl_snd_mono (env : ProcEnv) (l : List Client) :
    ∀ acc : Nat × List String, ∀ m ∈ acc.2, m ∈ (l.foldl (processStep env) acc).2 := by
  induction l with
  | nil =>
    intro acc m hm
    exact hm
  | cons c t ih =>
    intro acc m hm
    rw [List.foldl_cons]
    apply ih
    rw [processStep_snd_eq]
    exact List.mem_append_left _ hm

lemma foldl_snd_mem (env : ProcEnv) (l : List Client) :
    ∀ acc : Nat × List String, ∀ c ∈ l, ∀ m ∈ contribErrors env c,
      m ∈ (l.foldl (processStep env) acc).2 := by
  induction l with
  | nil =>
    intro acc c hc
    exact absurd hc (List.not_mem_nil c)
  | cons c0 t ih =>
    intro acc c hc m hm
    rw [List.foldl_cons]
    rcases List.mem_cons.mp hc with hh | ht
    · apply foldl_snd_mono
      rw [processStep_snd_eq]
      apply List.mem_append_right
      rw [← hh]
      exact hm
    · exact ih _ c ht m hm

/-- C5: the processor returns a count equal to the number of records whose
save succeeded, independently of every notification outcome; a save failure
for a record puts its keyed error message in the aggregate list; for a saved
record with a configured email service every notification error is in the
aggregate list; and within one lead the property and agent notifications are
each attempted and recorded independently of earlier failures. -/
theorem c5_lead_processor (env : ProcEnv) (clients : List Client) :
    (process_client_data_enhanced env clients).1
        = (clients.filter (saveOk env)).length
    ∧ (∀ c e, c ∈ clients → env.save c = .error e →
        saveErrorMsg c e ∈ (process_client_data_enhanced env clients).2)
    ∧ (∀ c b, c ∈ clients → env.save c = .ok b → env.emailConfigured = true →
        ∀ m, m ∈ (send_manual_lead_processing_email env.email c b).errors →
          m ∈ (process_client_data_enhanced env clients).2)
    ∧ (∀ c b, (env.email.sendProperty c = false →
          "Failed to send property details email"
            ∈ (send_manual_lead_processing_email env.email c b).errors)
        ∧ (env.email.sendAgent c b = false →
          "Failed to send agent notification"
            ∈ (send_manual_lead_processing_email env.email c b).errors)) := by
  refine ⟨?_, ?_, ?_, ?_⟩
  · rw [process_client_data_enhanced, foldl_fst]
    simp
  · intro c e hc hs
    have hm : saveErrorMsg c e ∈ contribErrors env c := by
      unfold contribErrors
      rw [hs]
      simp
    exact foldl_snd_mem env clients _ c hc _ hm
  · intro c b hc hs hconf m hm
    have hm2 : m ∈ contribErrors env c := by
      unfold contribErrors
      rw [hs]
      show m ∈ (if env.emailConfigured then
          (send_manual_lead_processing_email env.email c b).errors
        else ["Email service not configured"])
      rw [if_pos hconf]
      exact hm
    exact foldl_snd_mem env clients _ c hc _ hm2
  · intro c b
    constructor
    · intro hfail
      unfold send_manual_lead_processing_email
      rw [hfail]
      simp
    · intro hfail
      unfold send_manual_lead_processing_email
      rw [hfail]
      simp

def wC5ClientA : Client :=
  { client_type := "Buyer", name := "Jane", phone := "2025550123",
    email := "jane@x.co", property_type := none, address := none,
    budget := none, appointment := none, appointment_time := none,
    details := none }

def wC5ClientB : Client := { wC5ClientA with name := "Bob", email := "bob@x.co" }

def wC5Env : ProcEnv :=
  { save := fun c => if c.email == "jane@x.co" then .ok true else .error "db down",
    emailConfigured := true,
    email :=
      { sendWelcome := fun _ => false,
        sendProperty := fun _ => true,
        sendAgent := fun _ _ => true } }

/-- C5 witness: a two-record batch where the second save fails still counts
the first record, records the keyed error for the second, and records the
failed welcome notification of the first. -/
theorem c5_lead_processor_witness :
    (process_client_data_enhanced wC5Env [wC5ClientA, wC5ClientB]).1 = 1
    ∧ saveErrorMsg wC5ClientB "db down"
        ∈ (process_client_data_enhanced wC5Env [wC5ClientA, wC5ClientB]).2
    ∧ "Failed to send welcome email"
        ∈ (process_client_data_enhanced wC5Env [wC5ClientA, wC5ClientB]).2 :=
  ⟨((c5_lead_processor wC5Env [wC5ClientA, wC5ClientB]).1).trans (by decide),
   (c5_lead_processor wC5Env [wC5ClientA, wC5ClientB]).2.1 wC5ClientB "db down"
     (by simp) rfl,
   (c5_lead_processor wC5Env [wC5ClientA, wC5ClientB]).2.2.1 wC5ClientA true
     (by simp) rfl rfl "Failed to send welcome email" (by decide)⟩

/- ---------------------------------------------------------------
   C10: extract_and_process_clients, conversation_manager.py
   lines 116-157.  The AI extraction result is a parameter (the
   extractor absorbs its own failures into an empty list, see C2);
   the database save of lines 139-140 happens inside
   _save_conversation_to_db, which catches every exception (lines
   180-181), so its success is a parameter with no effect on the
   store or the returned outcome.
   --------------------------------------------------------------- -/

/-- The dict returned by extract_and_process_clients. -/
inductive ExtractionOutcome where
  | notFound : ExtractionOutcome
  | result (clients_extracted clients_processed : Nat) (success : Bool)
      (errors : List String) (clients : List Client) : ExtractionOutcome
deriving DecidableEq

/-- extract_and_process_clients, lines 116-157. -/
def extract_and_process_clients (st : ConvStore) (cid : String)
    (extracted : List Client) (_dbSaveOk : Bool) : ConvStore × ExtractionOutcome :=
  match get_conversation st cid with
  | none => (st, .notFound)
  | some msgs =>
    if msgs.isEmpty then (st, .notFound)
    else if extracted.isEmpty then
      (st, .result 0 0 false
        ["No client data could be extracted from the conversation"] [])
    else
      (mark_processed st cid extracted,
       .result extracted.length extracted.length true [] extracted)

/-- C10: for a present, non-empty conversation, an empty extraction leaves
the store (hence the processed flag) unchanged and returns zero counts with
success false, while a non-empty extraction stores the records, sets
processed, and returns matching counts with success true; the result never
depends on whether the conversation database save succeeds. -/
theorem c10_processed_iff_extracted (st : ConvStore) (cid : String)
    (msgs : List ChatMessage) (md : ConvMetadata) (extracted : List Client)
    (b b' : Bool)
    (hm : get_conversation st cid = some msgs) (hne : msgs.isEmpty = false)
    (hmd : get_conversation_metadata st cid = some md) :
    (extracted = [] →
      extract_and_process_clients st cid extracted b
        = (st, .result 0 0 false
            ["No client data could be extracted from the conversation"] []))
    ∧ (extracted ≠ [] →
        get_conversation_metadata
            (extract_and_process_clients st cid extracted b).1 cid
          = some { md with extracted_clients := extracted, processed := true }
        ∧ (extract_and_process_clients st cid extracted b).2
          = .result extracted.length extracted.length true [] extracted)
    ∧ extract_and_process_clients st cid extracted b
        = extract_and_process_clients st cid extracted b' := by
  have hunfold : extract_and_process_clients st cid extracted b
      = if extracted.isEmpty then
          (st, .result 0 0 false
            ["No client data could be extracted from the conversation"] [])
        else
          (mark_processed st cid extracted,
           .result extracted.length extracted.length true [] extracted) := by
    unfold extract_and_process_clients
    rw [hm]
    simp [hne]
  have hunfold' : extract_and_process_clients st cid extracted b'
      = if extracted.isEmpty then
          (st, .result 0 0 false
            ["No client data could be extracted from the conversation"] [])
        else
          (mark_processed st cid extracted,
           .result extracted.length extracted.length true [] extracted) := by
    unfold extract_and_process_clients
    rw [hm]
    simp [hne]
  refine ⟨?_, ?_, by rw [hunfold, hunfold']⟩
  · intro hnil
    rw [hunfold, hnil]
    simp
  · intro hnn
    have hnemp : extracted.isEmpty = false := by
      cases extracted with
      | nil => exact absurd rfl hnn
      | cons a t => rfl
    rw [hunfold, hnemp]
    simp only [Bool.false_eq_true, if_false]
    constructor
    · have hmd' : alookup st.meta cid = some md := hmd
      show alookup (mark_processed st cid extracted).meta cid = _
      have hmeta : (mark_processed st cid extracted).meta
          = upsertKey st.meta cid
              { md with extracted_clients := extracted, processed := true } := by
        show (match alookup st.meta cid with
              | some md' => { st with meta := upsertKey st.meta cid { md' with extracted_clients := extracted, processed := true } }
              | none => st).meta
            = upsertKey st.meta cid
                { md with extracted_clients := extracted, processed := true }
        rw [hmd']
      rw [hmeta]
      exact alookup_upsert_self _ _ _
    · trivial

def wC10Meta : ConvMetadata :=
  { created_at := 0, updated_at := none, stage := "welcome",
    client_type := none, extracted_clients := [], processed := false }

def wC10Msgs : List ChatMessage := [⟨"user", "hello"⟩, ⟨"assistant", "hi"⟩]

def wC10Store : ConvStore := ⟨[("c", wC10Msgs)], [("c", wC10Meta)]⟩

def wC10Client : Client :=
  { client_type := "Seller", name := "Ann", phone := "2025550199",
    email := "ann@x.co", property_type := none, address := some "1 Elm St",
    budget := none, appointment := none, appointment_time := none,
    details := none }

/-- C10 witness: on a concrete conversation, an empty extraction leaves the
store untouched with a zero-count failed outcome, and a one-record extraction
sets processed and stores the record, for either save outcome. -/
theorem c10_witness :
    extract_and_process_clients wC10Store "c" [] true
      = (wC10Store, .result 0 0 false
          ["No client data could be extracted from the conversation"] [])
    ∧ get_conversation_metadata
        (extract_and_process_clients wC10Store "c" [wC10Client] false).1 "c"
      = some { wC10Meta with extracted_clients := [wC10Client], processed := true }
    ∧ extract_and_process_clients wC10Store "c" [wC10Client] false
      = extract_and_process_clients wC10Store "c" [wC10Client] true :=
  ⟨(c10_processed_iff_extracted wC10Store "c" wC10Msgs wC10Meta [] true true
      rfl rfl rfl).1 rfl,
   ((c10_processed_iff_extracted wC10Store "c" wC10Msgs wC10Meta [wC10Client]
      false false rfl rfl rfl).2.1 (by simp)).1,
   (c10_processed_iff_extracted wC10Store "c" wC10Msgs wC10Meta [wC10Client]
      false true rfl rfl rfl).2.2⟩

end Airea
